import Mathlib

/-!
Shallow embedding of the planner/executor core of `g_client_new.py`
(GitHubLangGraphAgent): query analysis, tool selection, tool execution,
the continuation predicate and the compiled LangGraph workflow.

The language model and the semantic store are external collaborators; they
enter the embedding as parameters (`search` for the store, `responses` and
`finalText` for the model, `invoke` for tool behaviour).  Everything else is
translated from the source.
-/

namespace GClient

/-- Boolean test that the first character list is an initial segment of the
second, used to build substring containment (Python `in` on strings). -/
def listLeads : List Char → List Char → Bool
  | [], _ => true
  | _ :: _, [] => false
  | a :: as, b :: bs => a == b && listLeads as bs

/-- Boolean test that `pat` occurs as a contiguous segment of the second list. -/
def listHasSeg (pat : List Char) : List Char → Bool
  | [] => listLeads pat []
  | b :: bs => listLeads pat (b :: bs) || listHasSeg pat bs

/-- Python `pat in s` on strings: substring containment. -/
def strContains (s pat : String) : Bool :=
  listHasSeg pat.data s.data

/-- Python `s.lower()` on the ASCII strings this program handles, mapping
`Char.toLower` over the characters. -/
def strLower (s : String) : String :=
  String.mk (s.data.map Char.toLower)

/-- Conversational message, mirroring the LangChain message kinds used by the
client: HumanMessage, AIMessage and ToolMessage. -/
inductive Message where
  | human (content : String)
  | ai (content : String)
  | tool (content : String) (tool_call_id : String)
deriving Repr, DecidableEq

/-- Text payload of a message (the `.content` attribute). -/
def Message.content : Message → String
  | .human c => c
  | .ai c => c
  | .tool c _ => c

/-- Boolean test for a ToolMessage. -/
def isToolMessage : Message → Bool
  | .tool _ _ => true
  | _ => false

/-- State threaded through the LangGraph nodes (`AgentState` TypedDict in the
source).  `tool_results` is a Python dict, modelled as an insertion-ordered
association list with in-place update, exactly the CPython dict behaviour the
continuation predicate depends on. -/
structure AgentState where
  messages : List Message
  current_query : String
  selected_tools : List String
  tool_results : List (String × String)
  final_response : String
  iteration_count : Nat
  max_iterations : Nat
  is_complex_query : Bool
deriving Repr, DecidableEq

/-- Python dict key-membership test (`k in d`). -/
def dictHasKey (d : List (String × String)) (k : String) : Bool :=
  d.any (fun p => p.1 == k)

/-- Python dict assignment `d[k] = v`: replace in place when the key exists
(insertion order kept), otherwise append at the end. -/
def dictUpsert (d : List (String × String)) (k v : String) : List (String × String) :=
  if dictHasKey d k then d.map (fun p => if p.1 == k then (k, v) else p)
  else d ++ [(k, v)]

/-- Python dict read `d.get(k)`: value at the first (hence only) entry whose
key matches. -/
def dictLookup (d : List (String × String)) (k : String) : Option String :=
  match d with
  | [] => none
  | p :: rest => if p.1 == k then some p.2 else dictLookup rest k

/-- One proposed tool invocation from the model (`tool_call` dict with name,
args and id). -/
structure ToolCall where
  name : String
  args : List (String × String)
  id : String
deriving Repr, DecidableEq

/-- Model output for one Executing pass: text content plus zero or more
proposed tool invocations. -/
structure LLMResponse where
  content : String
  tool_calls : List ToolCall
deriving Repr, DecidableEq

/-- Behaviour of the registered tools: a name and arguments give either a
result string or a raised fault with a description (Python exception text). -/
abbrev ToolBehavior := String → List (String × String) → Except String String

/-- Keyword-to-toolset override table (`special_tools` local dict in
`_retrieve_relevant_tools`), in declaration order. -/
def special_tools : List (String × List String) := [
  ("repository", ["create_repository", "delete_repository", "get_repository_info"]),
  ("repo", ["create_repository", "delete_repository", "get_repository_info"]),
  ("branch", ["list_branches", "create_branch", "delete_branch", "checkout_branch"]),
  ("file", ["create_file", "update_file", "delete_file", "create_local_file"]),
  ("pull request", ["list_pull_requests", "create_pull_request", "merge_pull_request", "close_pull_request"]),
  ("pr", ["list_pull_requests", "create_pull_request", "merge_pull_request", "close_pull_request"]),
  ("issue", ["list_issues", "create_issue", "close_issue", "comment_on_issue"]),
  ("clone", ["clone_repository", "get_repo_status", "pull_changes"]),
  ("commit", ["commit_changes", "push_changes", "get_repo_status"]),
  ("workflow", ["list_workflows", "trigger_workflow"]),
  ("collaborator", ["list_collaborators", "add_collaborator"]),
  ("user", ["get_github_user_info", "list_user_repositories"]),
  ("organization", ["list_organization_repositories"]),
  ("vscode", ["open_file_in_vscode"])
]

/-- One table entry of the keyword scan: when the keyword occurs in the
lowered query, append its tools to the accumulator when absent from it and
present in the registry. -/
def appendKeywordTools (registry : List String) (query_lower : String)
    (acc : List String) (entry : String × List String) : List String :=
  if strContains query_lower entry.1 then
    entry.2.foldl (fun acc2 t =>
      if !(acc2.contains t) && registry.contains t then acc2 ++ [t] else acc2) acc
  else acc

/-- Tool Selector (`_retrieve_relevant_tools`): semantic store results first,
then the keyword overrides in table order, then truncation to `limit`. -/
def retrieve_relevant_tools (registry : List String)
    (search : String → Nat → List String) (query : String) (limit : Nat) :
    List String :=
  let tool_names := search query limit
  let query_lower := strLower query
  let tool_names := special_tools.foldl (appendKeywordTools registry query_lower) tool_names
  tool_names.take limit

/-- Default `limit` argument of `_retrieve_relevant_tools`. -/
def defaultLimit : Nat := 5

/-- Complexity indicators checked by `query_analysis_node`. -/
def complex_indicators : List String := [" and ", " then ", " after ", " next "]

/-- Complexity classification: some indicator occurs in the lowered query. -/
def isComplexQuery (q : String) : Bool :=
  complex_indicators.any (fun ind => strContains (strLower q) ind)

/-- Query analysis node (`query_analysis_node`): classify complexity, select
tools, reset the iteration counter and fix the iteration budget. -/
def query_analysis_node (registry : List String)
    (search : String → Nat → List String) (state : AgentState) : AgentState :=
  let is_complex := isComplexQuery state.current_query
  let selected_tools := retrieve_relevant_tools registry search state.current_query defaultLimit
  { state with
    selected_tools := selected_tools,
    iteration_count := 0,
    max_iterations := if is_complex then 5 else 10,
    is_complex_query := is_complex }

/-- Preview of a result used in the planning context (`str(result)[:200]`). -/
def resultPreview (r : String) : String :=
  String.mk (r.data.take 200)

/-- Context digest of prior executions built at the start of
`tool_execution_node`. -/
def contextDigest (tool_results : List (String × String)) : String :=
  if tool_results.isEmpty then ""
  else
    "\nPrevious executions:\n" ++
      tool_results.foldl
        (fun acc p => acc ++ "- " ++ p.1 ++ ": " ++ resultPreview p.2 ++ "...\n") "" ++
      "\nBased on these results, determine next steps.\n"

/-- Planning prompt (the f-string in `tool_execution_node`). -/
def planningPrompt (state : AgentState) : String :=
  "\n        You are a GitHub automation assistant. User asked: \"" ++
    state.current_query ++ "\"\n        \n        Available tools: " ++
    String.intercalate ", " state.selected_tools ++
    "\n        Current iteration: " ++ toString (state.iteration_count + 1) ++
    "/" ++ toString state.max_iterations ++ "\n        \n        " ++
    contextDigest state.tool_results ++
    "\n        \n        Guidelines:\n" ++
    "        - If user mentions setting or switching repository, use set_repository tool first\n" ++
    "        - Execute ONE tool at a time\n" ++
    "        - If something does not exist but is needed, create it\n" ++
    "        - Get information before acting when needed\n" ++
    "        - Think step-by-step about the goal of the user\n" ++
    "        - Always set repository before performing operations if not already set\n" ++
    "        \n        What tool should you execute next?\n        "

/-- Processing of one proposed invocation inside `tool_execution_node`: look
the name up in the registry, invoke or record the not-found failure, catch any
fault; a ToolMessage is appended only on success; the result dict is updated
in every branch. -/
def processToolCall (registry : List String) (invoke : ToolBehavior)
    (acc : List Message × List (String × String)) (tc : ToolCall) :
    List Message × List (String × String) :=
  if registry.contains tc.name then
    match invoke tc.name tc.args with
    | .ok result =>
        (acc.1 ++ [Message.tool result tc.id], dictUpsert acc.2 tc.name result)
    | .error e =>
        (acc.1, dictUpsert acc.2 tc.name ("Error executing " ++ tc.name ++ ": " ++ e))
  else
    (acc.1, dictUpsert acc.2 tc.name ("Tool " ++ tc.name ++ " not found"))

/-- Value recorded for one proposed invocation, all branches collected. -/
def stepValue (registry : List String) (invoke : ToolBehavior) (tc : ToolCall) : String :=
  if registry.contains tc.name then
    match invoke tc.name tc.args with
    | .ok result => result
    | .error e => "Error executing " ++ tc.name ++ ": " ++ e
  else "Tool " ++ tc.name ++ " not found"

/-- Tool execution node (`tool_execution_node`): append the planning prompt
and the model reply to the history, process every proposed invocation in
order, then increment the iteration counter. -/
def tool_execution_node (registry : List String) (invoke : ToolBehavior)
    (response : LLMResponse) (state : AgentState) : AgentState :=
  let messages :=
    state.messages ++ [Message.human (planningPrompt state), Message.ai response.content]
  let acc := response.tool_calls.foldl (processToolCall registry invoke)
    (messages, state.tool_results)
  { state with
    messages := acc.1,
    tool_results := acc.2,
    iteration_count := state.iteration_count + 1 }

/-- Summary text built by `response_generation_node` ("No tools executed."
when the result dict is empty). -/
def summaryText (tool_results : List (String × String)) : String :=
  if tool_results.isEmpty then "No tools executed."
  else String.intercalate "\n" (tool_results.map (fun p => "**" ++ p.1 ++ "**: " ++ p.2))

/-- Final prompt assembled by `response_generation_node`. -/
def finalPrompt (state : AgentState) : String :=
  "\n        User asked: \"" ++ state.current_query ++
    "\"\n        \n        Executed actions:\n        " ++
    summaryText state.tool_results ++
    "\n        \n        Provide a response that:\n" ++
    "        1. Summarizes what was done\n" ++
    "        2. Answers the original question\n" ++
    "        3. Includes relevant details\n" ++
    "        4. Uses markdown formatting\n" ++
    "        5. Explains if more work is needed\n        "

/-- Response generation node (`response_generation_node`): append the final
prompt and the model answer, write `final_response`. -/
def response_generation_node (finalText : String) (state : AgentState) : AgentState :=
  let messages := state.messages ++ [Message.human (finalPrompt state)]
  { state with
    final_response := finalText,
    messages := messages ++ [Message.ai finalText] }

/-- Decision values of the conditional edge out of tool execution. -/
inductive Decision where
  | tool_execution
  | response_generation
deriving Repr, DecidableEq

/-- More-work phrases checked against the most recent message
(`continue_indicators` in `should_continue`). -/
def continue_indicators : List String :=
  ["next", "then", "now i will", "i need to", "let me",
   "should", "will now", "going to", "need to check"]

/-- Incomplete phrases checked against the latest tool result
(`incomplete_indicators` in `should_continue`). -/
def incomplete_indicators : List String :=
  ["does not exist", "not found", "failed", "error",
   "next step", "need to", "should create", "empty", "no repository selected"]

/-- Rule 3 condition of `should_continue`: the last message has non-empty
content whose lowering contains a more-work phrase. -/
def lastMessageSignal (messages : List Message) : Bool :=
  match messages.getLast? with
  | some m =>
      (m.content != "") &&
        continue_indicators.any (fun ind => strContains (strLower m.content) ind)
  | none => false

/-- Rule 4 condition of `should_continue`: the value at the last key of the
result dict (`list(values())[-1]`), lowered, contains an incomplete phrase. -/
def lastResultSignal (tool_results : List (String × String)) : Bool :=
  match tool_results.getLast? with
  | some p => incomplete_indicators.any (fun ind => strContains (strLower p.2) ind)
  | none => false

/-- Continuation predicate (`should_continue`), in source order: budget
check, empty-results check, last-message phrases, last-result phrases,
otherwise stop. -/
def should_continue (state : AgentState) : Decision :=
  if state.max_iterations ≤ state.iteration_count then .response_generation
  else if state.tool_results.isEmpty then .tool_execution
  else if lastMessageSignal state.messages then .tool_execution
  else if lastResultSignal state.tool_results then .tool_execution
  else .response_generation

/-- Fresh per-query state built in `main` before `graph.ainvoke`. -/
def initialState (query : String) : AgentState :=
  { messages := [Message.human query],
    current_query := query,
    selected_tools := [],
    tool_results := [],
    final_response := "",
    iteration_count := 0,
    max_iterations := 5,
    is_complex_query := false }

/-- Executing loop of the compiled graph: run a tool-execution pass, then
follow the conditional edge chosen by `should_continue`; `fuel` bounds the
recursion and is instantiated with the iteration budget, which rule 1 of the
predicate never lets the loop exceed. -/
def runLoop (registry : List String) (invoke : ToolBehavior)
    (responses : Nat → LLMResponse) : Nat → AgentState → AgentState
  | 0, state => state
  | fuel + 1, state =>
    let state2 := tool_execution_node registry invoke (responses state.iteration_count) state
    match should_continue state2 with
    | .response_generation => state2
    | .tool_execution => runLoop registry invoke responses fuel state2

/-- Compiled workflow (`build_graph` plus `main`): START → query_analysis →
tool_execution ⇄ (conditional) → response_generation → END. -/
def runAgent (registry : List String) (invoke : ToolBehavior)
    (search : String → Nat → List String) (responses : Nat → LLMResponse)
    (finalText : String) (query : String) : AgentState :=
  let s1 := query_analysis_node registry search (initialState query)
  let s2 := runLoop registry invoke responses s1.max_iterations s1
  response_generation_node finalText s2

/-- Registry names built by `get_tool_registry` in `g_server_new.py` from the
`all_tools` list, keyed by function name, in declaration order. -/
def fullRegistry : List String :=
  ["github_greeter", "list_branches", "create_branch", "delete_branch",
   "create_file", "update_file", "delete_file",
   "list_pull_requests", "create_pull_request", "merge_pull_request", "close_pull_request",
   "list_issues", "create_issue", "close_issue", "comment_on_issue",
   "list_collaborators", "add_collaborator", "list_workflows",
   "clone_repository", "checkout_branch", "commit_changes", "push_changes",
   "get_repo_status", "create_local_file", "pull_changes", "open_file_vscode",
   "create_repository", "delete_repository", "list_user_repositories",
   "list_organization_repositories", "get_github_user_info", "get_repository_info"]

/-- Semantic store that ranks nothing: the store finds no match for the
query. -/
def emptySearch : String → Nat → List String := fun _ _ => []

/-- Semantic store returning one fixed match, for concrete instantiations. -/
def oneSearch : String → Nat → List String := fun _ _ => ["github_greeter"]

/-- Tool behaviour that always succeeds with a fixed payload. -/
def exInvokeOk : ToolBehavior := fun _ _ => .ok "created"

/-- Tool behaviour that always raises a fault with description "boom". -/
def exInvokeFault : ToolBehavior := fun _ _ => .error "boom"

/-- Tool behaviour echoing the argument named "v", to distinguish two runs of
the same tool. -/
def exInvokeEcho : ToolBehavior := fun _ args =>
  match dictLookup args "v" with
  | some x => .ok x
  | none => .ok ""

/-- Model proposals by pass index: one unknown tool on every pass. -/
def exResponsesUnknown : Nat → LLMResponse := fun _ => ⟨"", [⟨"foo", [], "1"⟩]⟩

/-- State with one result whose text contains "Not Found" and budget left,
for the continuation-predicate instantiation. -/
def exStateC2 : AgentState :=
  { initialState "find the file" with
    tool_results := [("get_repository_info", "File Not Found")],
    iteration_count := 1,
    max_iterations := 10 }

/-- Proposal batch naming a tool absent from every registry used here. -/
def exBatchUnknown : LLMResponse := ⟨"", [⟨"foo", [], "1"⟩]⟩

/-- Batch with an unknown tool followed by a known one. -/
def exBatchC4 : LLMResponse := ⟨"", [⟨"foo", [], "1"⟩, ⟨"github_greeter", [], "2"⟩]⟩

/-- Batch with one registered tool. -/
def exBatchGreeter : LLMResponse := ⟨"", [⟨"github_greeter", [], "1"⟩]⟩

/-- Batch proposing a registry tool that is outside `selected_tools`. -/
def exBatchC8 : LLMResponse := ⟨"", [⟨"create_repository", [], "1"⟩]⟩

/-- Batch running the same tool twice with different arguments. -/
def exBatchTwice : LLMResponse :=
  ⟨"", [⟨"github_greeter", [("v", "one")], "1"⟩, ⟨"github_greeter", [("v", "two")], "2"⟩]⟩

end GClient

namespace GClient

/-! ### Boolean helpers -/

theorem bool_eq_false {b : Bool} (h : ¬ b = true) : b = false := by
  cases b
  · rfl
  · exact absurd rfl h

theorem bool_ne_true {b : Bool} (h : b = false) : ¬ b = true := by
  subst h
  exact Bool.false_ne_true

/-! ### Dictionary lemmas -/

theorem dictHasKey_nil (k : String) : dictHasKey [] k = false := rfl

theorem dictHasKey_cons (p : String × String) (d : List (String × String)) (k : String) :
    dictHasKey (p :: d) k = ((p.1 == k) || dictHasKey d k) := by
  simp [dictHasKey]

theorem dictLookup_cons (p : String × String) (d : List (String × String)) (k : String) :
    dictLookup (p :: d) k = if p.1 == k then some p.2 else dictLookup d k := rfl

theorem dictHasKey_append_single (d : List (String × String)) (k v k2 : String) :
    dictHasKey (d ++ [(k, v)]) k2 = (dictHasKey d k2 || (k == k2)) := by
  simp [dictHasKey]

theorem dictHasKey_map_upd (d : List (String × String)) (k v k2 : String) :
    dictHasKey (d.map (fun p => if p.1 == k then (k, v) else p)) k2 = dictHasKey d k2 := by
  induction d with
  | nil => rfl
  | cons p d ih =>
    by_cases h : (p.1 == k) = true
    · rw [List.map_cons, if_pos h, dictHasKey_cons, dictHasKey_cons, ih]
      show (k == k2 || dictHasKey d k2) = (p.1 == k2 || dictHasKey d k2)
      rw [eq_of_beq h]
    · rw [List.map_cons, if_neg h, dictHasKey_cons, dictHasKey_cons, ih]

theorem dictUpsert_hasKey (d : List (String × String)) (k v k2 : String) :
    dictHasKey (dictUpsert d k v) k2 = (dictHasKey d k2 || (k == k2)) := by
  unfold dictUpsert
  by_cases h : dictHasKey d k = true
  · rw [if_pos h, dictHasKey_map_upd]
    by_cases h2 : (k == k2) = true
    · rw [h2, Bool.or_true, ← eq_of_beq h2]
      exact h
    · rw [bool_eq_false h2, Bool.or_false]
  · rw [if_neg h, dictHasKey_append_single]

theorem dictLookup_map_upd_self (d : List (String × String)) (k v : String)
    (h : dictHasKey d k = true) :
    dictLookup (d.map (fun p => if p.1 == k then (k, v) else p)) k = some v := by
  induction d with
  | nil =>
    rw [dictHasKey_nil] at h
    exact absurd h Bool.false_ne_true
  | cons p d ih =>
    rw [dictHasKey_cons] at h
    by_cases hp : (p.1 == k) = true
    · rw [List.map_cons, if_pos hp, dictLookup_cons, if_pos (beq_self_eq_true k)]
    · rw [List.map_cons, if_neg hp, dictLookup_cons, if_neg hp]
      rw [bool_eq_false hp, Bool.false_or] at h
      exact ih h

theorem dictLookup_append_single_self (d : List (String × String)) (k v : String)
    (h : dictHasKey d k = false) :
    dictLookup (d ++ [(k, v)]) k = some v := by
  induction d with
  | nil => rw [List.nil_append, dictLookup_cons, if_pos (beq_self_eq_true k)]
  | cons p d ih =>
    rw [dictHasKey_cons, Bool.or_eq_false_iff] at h
    rw [List.cons_append, dictLookup_cons, if_neg (bool_ne_true h.1)]
    exact ih h.2

theorem dictLookup_upsert_self (d : List (String × String)) (k v : String) :
    dictLookup (dictUpsert d k v) k = some v := by
  unfold dictUpsert
  by_cases h : dictHasKey d k = true
  · rw [if_pos h]
    exact dictLookup_map_upd_self d k v h
  · rw [if_neg h]
    exact dictLookup_append_single_self d k v (bool_eq_false h)

theorem dictLookup_map_upd_other (d : List (String × String)) (k v k2 : String)
    (h : k2 ≠ k) :
    dictLookup (d.map (fun p => if p.1 == k then (k, v) else p)) k2 = dictLookup d k2 := by
  have hk2 : (k == k2) = false := beq_eq_false_iff_ne.mpr (fun he => h he.symm)
  induction d with
  | nil => rfl
  | cons p d ih =>
    by_cases hp : (p.1 == k) = true
    · have hp2 : (p.1 == k2) = false := by rw [eq_of_beq hp]; exact hk2
      rw [List.map_cons, if_pos hp, dictLookup_cons, dictLookup_cons,
        if_neg (bool_ne_true hk2), if_neg (bool_ne_true hp2), ih]
    · rw [List.map_cons, if_neg hp, dictLookup_cons, dictLookup_cons, ih]

theorem dictLookup_append_single_other (d : List (String × String)) (k v k2 : String)
    (h : k2 ≠ k) :
    dictLookup (d ++ [(k, v)]) k2 = dictLookup d k2 := by
  have hk2 : (k == k2) = false := beq_eq_false_iff_ne.mpr (fun he => h he.symm)
  induction d with
  | nil => rw [List.nil_append, dictLookup_cons, if_neg (bool_ne_true hk2)]
  | cons p d ih => rw [List.cons_append, dictLookup_cons, dictLookup_cons, ih]

theorem dictLookup_upsert_other (d : List (String × String)) (k v k2 : String)
    (h : k2 ≠ k) :
    dictLookup (dictUpsert d k v) k2 = dictLookup d k2 := by
  unfold dictUpsert
  by_cases hk : dictHasKey d k = true
  · rw [if_pos hk]
    exact dictLookup_map_upd_other d k v k2 h
  · rw [if_neg hk]
    exact dictLookup_append_single_other d k v k2 h

end GClient

namespace GClient

/-! ### Per-invocation step lemmas -/

theorem processToolCall_snd (registry : List String) (invoke : ToolBehavior)
    (acc : List Message × List (String × String)) (tc : ToolCall) :
    (processToolCall registry invoke acc tc).2
      = dictUpsert acc.2 tc.name (stepValue registry invoke tc) := by
  unfold processToolCall stepValue
  by_cases h : (registry.contains tc.name) = true
  · rw [if_pos h, if_pos h]
    cases hinv : invoke tc.name tc.args with
    | ok r => rfl
    | error e => rfl
  · rw [if_neg h, if_neg h]

theorem processToolCall_ok_eq (registry : List String) (invoke : ToolBehavior)
    (acc : List Message × List (String × String)) (tc : ToolCall) (r : String)
    (hreg : registry.contains tc.name = true)
    (hinv : invoke tc.name tc.args = .ok r) :
    processToolCall registry invoke acc tc
      = (acc.1 ++ [Message.tool r tc.id], dictUpsert acc.2 tc.name r) := by
  unfold processToolCall
  rw [if_pos hreg, hinv]

theorem processToolCall_error_eq (registry : List String) (invoke : ToolBehavior)
    (acc : List Message × List (String × String)) (tc : ToolCall) (e : String)
    (hreg : registry.contains tc.name = true)
    (hinv : invoke tc.name tc.args = .error e) :
    processToolCall registry invoke acc tc
      = (acc.1, dictUpsert acc.2 tc.name ("Error executing " ++ tc.name ++ ": " ++ e)) := by
  unfold processToolCall
  rw [if_pos hreg, hinv]

theorem processToolCall_unknown_eq (registry : List String) (invoke : ToolBehavior)
    (acc : List Message × List (String × String)) (tc : ToolCall)
    (hreg : registry.contains tc.name = false) :
    processToolCall registry invoke acc tc
      = (acc.1, dictUpsert acc.2 tc.name ("Tool " ++ tc.name ++ " not found")) := by
  unfold processToolCall
  rw [if_neg (bool_ne_true hreg)]

/-! ### Batch fold lemmas -/

theorem foldCalls_fst_append (registry : List String) (invoke : ToolBehavior) :
    ∀ (calls : List ToolCall) (acc : List Message × List (String × String)),
      ∃ tail, (calls.foldl (processToolCall registry invoke) acc).1 = acc.1 ++ tail := by
  intro calls
  induction calls with
  | nil =>
    intro acc
    exact ⟨[], (List.append_nil _).symm⟩
  | cons tc rest ih =>
    intro acc
    have hstep : ∃ t0, (processToolCall registry invoke acc tc).1 = acc.1 ++ t0 := by
      unfold processToolCall
      by_cases h : (registry.contains tc.name) = true
      · rw [if_pos h]
        cases hinv : invoke tc.name tc.args with
        | ok r => exact ⟨[Message.tool r tc.id], rfl⟩
        | error e => exact ⟨[], (List.append_nil _).symm⟩
      · rw [if_neg h]
        exact ⟨[], (List.append_nil _).symm⟩
    obtain ⟨t0, h0⟩ := hstep
    obtain ⟨t1, h1⟩ := ih (processToolCall registry invoke acc tc)
    refine ⟨t0 ++ t1, ?_⟩
    rw [List.foldl_cons, h1, h0, List.append_assoc]

theorem foldCalls_hasKey_mono (registry : List String) (invoke : ToolBehavior) :
    ∀ (calls : List ToolCall) (acc : List Message × List (String × String)) (k : String),
      dictHasKey acc.2 k = true →
      dictHasKey ((calls.foldl (processToolCall registry invoke) acc)).2 k = true := by
  intro calls
  induction calls with
  | nil =>
    intro acc k h
    exact h
  | cons tc rest ih =>
    intro acc k h
    rw [List.foldl_cons]
    apply ih
    rw [processToolCall_snd, dictUpsert_hasKey, h, Bool.true_or]

theorem foldCalls_hasKey_of_mem (registry : List String) (invoke : ToolBehavior) :
    ∀ (calls : List ToolCall) (acc : List Message × List (String × String)) (tc : ToolCall),
      tc ∈ calls →
      dictHasKey ((calls.foldl (processToolCall registry invoke) acc)).2 tc.name = true := by
  intro calls
  induction calls with
  | nil =>
    intro acc tc h
    exact absurd h (List.not_mem_nil tc)
  | cons tc0 rest ih =>
    intro acc tc h
    rw [List.foldl_cons]
    rcases List.mem_cons.mp h with h1 | h2
    · subst h1
      apply foldCalls_hasKey_mono
      rw [processToolCall_snd, dictUpsert_hasKey, beq_self_eq_true, Bool.or_true]
    · exact ih _ tc h2

theorem foldCalls_lookup_untouched (registry : List String) (invoke : ToolBehavior) :
    ∀ (calls : List ToolCall) (acc : List Message × List (String × String)) (k : String),
      (∀ tc ∈ calls, tc.name ≠ k) →
      dictLookup ((calls.foldl (processToolCall registry invoke) acc)).2 k
        = dictLookup acc.2 k := by
  intro calls
  induction calls with
  | nil =>
    intro acc k _
    rfl
  | cons tc rest ih =>
    intro acc k h
    rw [List.foldl_cons, ih _ k (fun tc2 hm => h tc2 (List.mem_cons_of_mem tc hm)),
      processToolCall_snd]
    exact dictLookup_upsert_other _ _ _ _ (Ne.symm (h tc (List.mem_cons_self tc rest)))

theorem foldCalls_keys_sub (registry : List String) (invoke : ToolBehavior) :
    ∀ (calls : List ToolCall) (acc : List Message × List (String × String)) (k : String),
      dictHasKey ((calls.foldl (processToolCall registry invoke) acc)).2 k = true →
      dictHasKey acc.2 k = true ∨ ∃ tc, tc ∈ calls ∧ tc.name = k := by
  intro calls
  induction calls with
  | nil =>
    intro acc k h
    exact Or.inl h
  | cons tc rest ih =>
    intro acc k h
    rw [List.foldl_cons] at h
    rcases ih _ k h with h1 | ⟨tc2, hm, hn⟩
    · rw [processToolCall_snd, dictUpsert_hasKey, Bool.or_eq_true] at h1
      rcases h1 with h2 | h3
      · exact Or.inl h2
      · exact Or.inr ⟨tc, List.mem_cons_self tc rest, eq_of_beq h3⟩
    · exact Or.inr ⟨tc2, List.mem_cons_of_mem tc hm, hn⟩

/-! ### Node bookkeeping lemmas -/

theorem tool_execution_count (registry : List String) (invoke : ToolBehavior)
    (response : LLMResponse) (state : AgentState) :
    (tool_execution_node registry invoke response state).iteration_count
      = state.iteration_count + 1 := rfl

theorem tool_execution_max (registry : List String) (invoke : ToolBehavior)
    (response : LLMResponse) (state : AgentState) :
    (tool_execution_node registry invoke response state).max_iterations
      = state.max_iterations := rfl

theorem tool_execution_selected (registry : List String) (invoke : ToolBehavior)
    (response : LLMResponse) (state : AgentState) :
    (tool_execution_node registry invoke response state).selected_tools
      = state.selected_tools := rfl

theorem tool_execution_results (registry : List String) (invoke : ToolBehavior)
    (response : LLMResponse) (state : AgentState) :
    (tool_execution_node registry invoke response state).tool_results
      = (response.tool_calls.foldl (processToolCall registry invoke)
          (state.messages ++ [Message.human (planningPrompt state),
            Message.ai response.content],
           state.tool_results)).2 := rfl

theorem tool_execution_messages (registry : List String) (invoke : ToolBehavior)
    (response : LLMResponse) (state : AgentState) :
    (tool_execution_node registry invoke response state).messages
      = (response.tool_calls.foldl (processToolCall registry invoke)
          (state.messages ++ [Message.human (planningPrompt state),
            Message.ai response.content],
           state.tool_results)).1 := rfl

theorem query_analysis_count (registry : List String)
    (search : String → Nat → List String) (state : AgentState) :
    (query_analysis_node registry search state).iteration_count = 0 := rfl

theorem query_analysis_max (registry : List String)
    (search : String → Nat → List String) (state : AgentState) :
    (query_analysis_node registry search state).max_iterations
      = if isComplexQuery state.current_query then 5 else 10 := rfl

theorem query_analysis_results (registry : List String)
    (search : String → Nat → List String) (state : AgentState) :
    (query_analysis_node registry search state).tool_results = state.tool_results := rfl

theorem response_generation_count (finalText : String) (state : AgentState) :
    (response_generation_node finalText state).iteration_count
      = state.iteration_count := rfl

theorem response_generation_max (finalText : String) (state : AgentState) :
    (response_generation_node finalText state).max_iterations
      = state.max_iterations := rfl

theorem response_generation_results (finalText : String) (state : AgentState) :
    (response_generation_node finalText state).tool_results = state.tool_results := rfl

end GClient

namespace GClient

/-! ### Continuation predicate and loop lemmas -/

theorem should_continue_lt {s : AgentState}
    (h : should_continue s = .tool_execution) :
    s.iteration_count < s.max_iterations := by
  by_contra hge
  have hle : s.max_iterations ≤ s.iteration_count := Nat.not_lt.mp hge
  unfold should_continue at h
  rw [if_pos hle] at h
  exact Decision.noConfusion h

theorem runLoop_max (registry : List String) (invoke : ToolBehavior)
    (responses : Nat → LLMResponse) :
    ∀ (fuel : Nat) (s : AgentState),
      (runLoop registry invoke responses fuel s).max_iterations = s.max_iterations := by
  intro fuel
  induction fuel with
  | zero =>
    intro s
    rfl
  | succ n ih =>
    intro s
    simp only [runLoop]
    split
    · exact tool_execution_max registry invoke _ s
    · rw [ih]
      exact tool_execution_max registry invoke _ s

theorem runLoop_bound (registry : List String) (invoke : ToolBehavior)
    (responses : Nat → LLMResponse) :
    ∀ (fuel : Nat) (s : AgentState),
      s.iteration_count < s.max_iterations →
      (runLoop registry invoke responses fuel s).iteration_count ≤ s.max_iterations := by
  intro fuel
  induction fuel with
  | zero =>
    intro s h
    exact Nat.le_of_lt h
  | succ n ih =>
    intro s h
    simp only [runLoop]
    split
    · rw [tool_execution_count]
      exact h
    · rename_i heq
      have hlt := should_continue_lt heq
      have hres := ih _ hlt
      rw [tool_execution_max] at hres
      exact hres

theorem runLoop_count_mono (registry : List String) (invoke : ToolBehavior)
    (responses : Nat → LLMResponse) :
    ∀ (fuel : Nat) (s : AgentState),
      s.iteration_count ≤ (runLoop registry invoke responses fuel s).iteration_count := by
  intro fuel
  induction fuel with
  | zero =>
    intro s
    exact Nat.le_refl _
  | succ n ih =>
    intro s
    simp only [runLoop]
    split
    · rw [tool_execution_count]
      exact Nat.le_succ _
    · have hres := ih (tool_execution_node registry invoke (responses s.iteration_count) s)
      rw [tool_execution_count] at hres
      exact Nat.le_trans (Nat.le_succ _) hres

theorem runLoop_count_pos (registry : List String) (invoke : ToolBehavior)
    (responses : Nat → LLMResponse) :
    ∀ (fuel : Nat) (s : AgentState), 1 ≤ fuel →
      s.iteration_count + 1 ≤ (runLoop registry invoke responses fuel s).iteration_count := by
  intro fuel
  cases fuel with
  | zero =>
    intro s h
    exact absurd h (by decide)
  | succ n =>
    intro s _
    simp only [runLoop]
    split
    · rw [tool_execution_count]
    · have hres := runLoop_count_mono registry invoke responses n
        (tool_execution_node registry invoke (responses s.iteration_count) s)
      rw [tool_execution_count] at hres
      exact hres

theorem step_keys (registry : List String) (invoke : ToolBehavior)
    (response : LLMResponse) (state : AgentState) (k : String)
    (h : dictHasKey (tool_execution_node registry invoke response state).tool_results k
          = true) :
    dictHasKey state.tool_results k = true
      ∨ ∃ tc, tc ∈ response.tool_calls ∧ tc.name = k := by
  rw [tool_execution_results] at h
  exact foldCalls_keys_sub registry invoke response.tool_calls _ k h

theorem runLoop_keys (registry : List String) (invoke : ToolBehavior)
    (responses : Nat → LLMResponse) :
    ∀ (fuel : Nat) (s : AgentState) (k : String),
      dictHasKey (runLoop registry invoke responses fuel s).tool_results k = true →
      dictHasKey s.tool_results k = true
        ∨ ∃ n tc, tc ∈ (responses n).tool_calls ∧ tc.name = k := by
  intro fuel
  induction fuel with
  | zero =>
    intro s k h
    exact Or.inl h
  | succ n ih =>
    intro s k h
    simp only [runLoop] at h
    have hand : ∀ s2 : AgentState,
        s2 = tool_execution_node registry invoke (responses s.iteration_count) s →
        dictHasKey s2.tool_results k = true →
        dictHasKey s.tool_results k = true
          ∨ ∃ m tc, tc ∈ (responses m).tool_calls ∧ tc.name = k := by
      intro s2 he h2
      subst he
      rcases step_keys registry invoke _ s k h2 with h3 | ⟨tc, hm, hn⟩
      · exact Or.inl h3
      · exact Or.inr ⟨s.iteration_count, tc, hm, hn⟩
    revert h
    split
    · intro h
      exact hand _ rfl h
    · intro h
      rcases ih _ k h with h2 | h3
      · exact hand _ rfl h2
      · exact Or.inr h3

end GClient

namespace GClient

/-! ### Selector lemmas -/

theorem contains_true_iff (l : List String) (t : String) :
    l.contains t = true ↔ t ∈ l := by
  simp

theorem contains_append_false (acc l : List String) (t : String)
    (h : (acc ++ l).contains t = false) : acc.contains t = false := by
  cases hc : acc.contains t with
  | false => rfl
  | true =>
    have hm : t ∈ acc := (contains_true_iff acc t).mp hc
    have h2 : (acc ++ l).contains t = true :=
      (contains_true_iff _ t).mpr (List.mem_append_left l hm)
    rw [h2] at h
    exact Bool.noConfusion h

theorem selInner_exists (registry : List String) :
    ∀ (ts acc : List String), ∃ tail,
      List.foldl (fun acc2 t =>
          if !(acc2.contains t) && registry.contains t then acc2 ++ [t] else acc2) acc ts
        = acc ++ tail
      ∧ ∀ t ∈ tail, registry.contains t = true ∧ acc.contains t = false := by
  intro ts
  induction ts with
  | nil =>
    intro acc
    exact ⟨[], (List.append_nil acc).symm, fun t ht => absurd ht (List.not_mem_nil t)⟩
  | cons t0 rest ih =>
    intro acc
    rw [List.foldl_cons]
    by_cases hc : (!(acc.contains t0) && registry.contains t0) = true
    · rw [if_pos hc]
      rw [Bool.and_eq_true] at hc
      have hna : acc.contains t0 = false := by
        cases hb : acc.contains t0 with
        | false => rfl
        | true => rw [hb] at hc; exact Bool.noConfusion hc.1
      obtain ⟨tail, he, hp⟩ := ih (acc ++ [t0])
      refine ⟨t0 :: tail, ?_, ?_⟩
      · rw [he, List.append_assoc]
        rfl
      · intro t ht
        rcases List.mem_cons.mp ht with h1 | h2
        · subst h1
          exact ⟨hc.2, hna⟩
        · obtain ⟨hr, hca⟩ := hp t h2
          exact ⟨hr, contains_append_false acc [t0] t hca⟩
    · rw [if_neg hc]
      exact ih acc

theorem selInner_nodup (registry : List String) :
    ∀ (ts acc : List String), acc.Nodup →
      (List.foldl (fun acc2 t =>
          if !(acc2.contains t) && registry.contains t then acc2 ++ [t] else acc2)
        acc ts).Nodup := by
  intro ts
  induction ts with
  | nil =>
    intro acc h
    exact h
  | cons t0 rest ih =>
    intro acc h
    rw [List.foldl_cons]
    by_cases hc : (!(acc.contains t0) && registry.contains t0) = true
    · rw [if_pos hc]
      rw [Bool.and_eq_true] at hc
      have hna : acc.contains t0 = false := by
        cases hb : acc.contains t0 with
        | false => rfl
        | true => rw [hb] at hc; exact Bool.noConfusion hc.1
      have hmem : t0 ∉ acc := fun hm => by
        rw [(contains_true_iff acc t0).mpr hm] at hna
        exact Bool.noConfusion hna
      exact ih (acc ++ [t0]) (by simp [List.nodup_append, h, hmem])
    · rw [if_neg hc]
      exact ih acc h

theorem appendKeywordTools_exists (registry : List String) (q : String)
    (acc : List String) (entry : String × List String) :
    ∃ tail, appendKeywordTools registry q acc entry = acc ++ tail
      ∧ ∀ t ∈ tail, registry.contains t = true ∧ acc.contains t = false := by
  unfold appendKeywordTools
  by_cases h : (strContains q entry.1) = true
  · rw [if_pos h]
    exact selInner_exists registry entry.2 acc
  · rw [if_neg h]
    exact ⟨[], (List.append_nil acc).symm, fun t ht => absurd ht (List.not_mem_nil t)⟩

theorem appendKeywordTools_nodup (registry : List String) (q : String)
    (acc : List String) (entry : String × List String) (h : acc.Nodup) :
    (appendKeywordTools registry q acc entry).Nodup := by
  unfold appendKeywordTools
  by_cases hc : (strContains q entry.1) = true
  · rw [if_pos hc]
    exact selInner_nodup registry entry.2 acc h
  · rw [if_neg hc]
    exact h

theorem selOuter_exists (registry : List String) (q : String) :
    ∀ (entries : List (String × List String)) (acc : List String), ∃ tail,
      List.foldl (appendKeywordTools registry q) acc entries = acc ++ tail
      ∧ ∀ t ∈ tail, registry.contains t = true ∧ acc.contains t = false := by
  intro entries
  induction entries with
  | nil =>
    intro acc
    exact ⟨[], (List.append_nil acc).symm, fun t ht => absurd ht (List.not_mem_nil t)⟩
  | cons e rest ih =>
    intro acc
    rw [List.foldl_cons]
    obtain ⟨t0, he0, hp0⟩ := appendKeywordTools_exists registry q acc e
    obtain ⟨t1, he1, hp1⟩ := ih (appendKeywordTools registry q acc e)
    refine ⟨t0 ++ t1, ?_, ?_⟩
    · rw [he1, he0, List.append_assoc]
    · intro t ht
      rcases List.mem_append.mp ht with h1 | h2
      · exact hp0 t h1
      · obtain ⟨hr, hca⟩ := hp1 t h2
        rw [he0] at hca
        exact ⟨hr, contains_append_false acc t0 t hca⟩

theorem selOuter_nodup (registry : List String) (q : String) :
    ∀ (entries : List (String × List String)) (acc : List String), acc.Nodup →
      (List.foldl (appendKeywordTools registry q) acc entries).Nodup := by
  intro entries
  induction entries with
  | nil =>
    intro acc h
    exact h
  | cons e rest ih =>
    intro acc h
    rw [List.foldl_cons]
    exact ih _ (appendKeywordTools_nodup registry q acc e h)

theorem retrieve_eq (registry : List String) (search : String → Nat → List String)
    (query : String) (limit : Nat) :
    retrieve_relevant_tools registry search query limit
      = (special_tools.foldl (appendKeywordTools registry (strLower query))
          (search query limit)).take limit := rfl

end GClient

namespace GClient

/-- Claim C1: for every query processed by the compiled workflow, the
iteration counter after loop termination is at most the iteration budget;
the counter starts at 0 in query analysis, the tool-execution node increments
it exactly once per pass without enforcing any bound, and the bound is
enforced by rule 1 of the continuation predicate. -/
theorem claim1_iteration_bound (registry : List String) (invoke : ToolBehavior)
    (search : String → Nat → List String) (responses : Nat → LLMResponse)
    (finalText : String) (query : String) :
    (runAgent registry invoke search responses finalText query).iteration_count
      ≤ (runAgent registry invoke search responses finalText query).max_iterations
    ∧ (query_analysis_node registry search (initialState query)).iteration_count = 0
    ∧ (∀ (response : LLMResponse) (s : AgentState),
        (tool_execution_node registry invoke response s).iteration_count
          = s.iteration_count + 1) := by
  refine ⟨?_, rfl, fun response s => rfl⟩
  simp only [runAgent]
  rw [response_generation_count, response_generation_max, runLoop_max]
  apply runLoop_bound
  rw [query_analysis_count, query_analysis_max]
  split
  · decide
  · decide

/-- Claim C10: the compiled workflow runs the tool-execution node at least
once before response generation: the edge from query analysis is
unconditional and the continuation predicate is only consulted after a pass,
so the final iteration counter is at least 1, whatever the query. -/
theorem claim10_at_least_one_pass (registry : List String) (invoke : ToolBehavior)
    (search : String → Nat → List String) (responses : Nat → LLMResponse)
    (finalText : String) (query : String) :
    1 ≤ (runAgent registry invoke search responses finalText query).iteration_count := by
  simp only [runAgent]
  rw [response_generation_count]
  have hfuel : 1 ≤ (query_analysis_node registry search (initialState query)).max_iterations := by
    rw [query_analysis_max]
    split
    · decide
    · decide
  have h := runLoop_count_pos registry invoke responses
    (query_analysis_node registry search (initialState query)).max_iterations
    (query_analysis_node registry search (initialState query)) hfuel
  rw [query_analysis_count] at h
  exact h

/-- Claim C3: query analysis gives every query classified complex a strictly
smaller iteration budget than any query not classified complex (5 against the
non-complex default 10). -/
theorem claim3_complex_budget (registry : List String)
    (search : String → Nat → List String) (s s2 : AgentState)
    (hc : isComplexQuery s.current_query = true)
    (hn : isComplexQuery s2.current_query = false) :
    (query_analysis_node registry search s).max_iterations
      < (query_analysis_node registry search s2).max_iterations := by
  rw [query_analysis_max, query_analysis_max, if_pos hc, if_neg (bool_ne_true hn)]
  decide

/-- Witness for claim C3 at the concrete queries "create a branch and then
open a PR" (complex) and "hello" (not complex). -/
theorem claim3_witness :
    isComplexQuery (initialState "create a branch and then open a PR").current_query = true
    ∧ isComplexQuery (initialState "hello").current_query = false
    ∧ (query_analysis_node fullRegistry emptySearch
          (initialState "create a branch and then open a PR")).max_iterations
        < (query_analysis_node fullRegistry emptySearch (initialState "hello")).max_iterations :=
  ⟨by decide, by decide,
    claim3_complex_budget fullRegistry emptySearch _ _ (by decide) (by decide)⟩

/-- Claim C2: the continuation predicate decides in source order with first
match winning: budget exhausted stops; empty results continue; a more-work
phrase in the last message continues; an incomplete phrase in the lowered
latest tool result continues; otherwise stop.  In particular a latest tool
result containing "not found" always continues when budget remains. -/
theorem claim2_decision_order (s : AgentState) :
    (s.max_iterations ≤ s.iteration_count → should_continue s = .response_generation)
    ∧ (s.iteration_count < s.max_iterations → s.tool_results.isEmpty = true →
        should_continue s = .tool_execution)
    ∧ (s.iteration_count < s.max_iterations → s.tool_results.isEmpty = false →
        lastMessageSignal s.messages = true → should_continue s = .tool_execution)
    ∧ (s.iteration_count < s.max_iterations → s.tool_results.isEmpty = false →
        lastMessageSignal s.messages = false → lastResultSignal s.tool_results = true →
        should_continue s = .tool_execution)
    ∧ (s.iteration_count < s.max_iterations → s.tool_results.isEmpty = false →
        lastMessageSignal s.messages = false → lastResultSignal s.tool_results = false →
        should_continue s = .response_generation)
    ∧ (s.iteration_count < s.max_iterations →
        ∀ p, s.tool_results.getLast? = some p →
          strContains (strLower p.2) "not found" = true →
          should_continue s = .tool_execution) := by
  have h1 : s.max_iterations ≤ s.iteration_count →
      should_continue s = .response_generation := by
    intro h
    unfold should_continue
    rw [if_pos h]
  have h2 : s.iteration_count < s.max_iterations → s.tool_results.isEmpty = true →
      should_continue s = .tool_execution := by
    intro hlt he
    unfold should_continue
    rw [if_neg (Nat.not_le.mpr hlt), if_pos he]
  have h3 : s.iteration_count < s.max_iterations → s.tool_results.isEmpty = false →
      lastMessageSignal s.messages = true → should_continue s = .tool_execution := by
    intro hlt he hm
    unfold should_continue
    rw [if_neg (Nat.not_le.mpr hlt), if_neg (bool_ne_true he), if_pos hm]
  have h4 : s.iteration_count < s.max_iterations → s.tool_results.isEmpty = false →
      lastMessageSignal s.messages = false → lastResultSignal s.tool_results = true →
      should_continue s = .tool_execution := by
    intro hlt he hm hr
    unfold should_continue
    rw [if_neg (Nat.not_le.mpr hlt), if_neg (bool_ne_true he),
      if_neg (bool_ne_true hm), if_pos hr]
  have h5 : s.iteration_count < s.max_iterations → s.tool_results.isEmpty = false →
      lastMessageSignal s.messages = false → lastResultSignal s.tool_results = false →
      should_continue s = .response_generation := by
    intro hlt he hm hr
    unfold should_continue
    rw [if_neg (Nat.not_le.mpr hlt), if_neg (bool_ne_true he),
      if_neg (bool_ne_true hm), if_neg (bool_ne_true hr)]
  have h6 : s.iteration_count < s.max_iterations →
      ∀ p, s.tool_results.getLast? = some p →
        strContains (strLower p.2) "not found" = true →
        should_continue s = .tool_execution := by
    intro hlt p hp hc
    have hne : s.tool_results.isEmpty = false := by
      cases hl : s.tool_results with
      | nil => rw [hl] at hp; exact Option.noConfusion hp
      | cons a l => rfl
    have hsig : lastResultSignal s.tool_results = true := by
      unfold lastResultSignal
      rw [hp]
      exact List.any_eq_true.mpr ⟨"not found", by decide, hc⟩
    by_cases hm : lastMessageSignal s.messages = true
    · exact h3 hlt hne hm
    · exact h4 hlt hne (bool_eq_false hm) hsig
  exact ⟨h1, h2, h3, h4, h5, h6⟩

/-- Witness for claim C2: a state with budget left whose single tool result
reads "File Not Found" makes the predicate continue. -/
theorem claim2_witness :
    exStateC2.iteration_count < exStateC2.max_iterations
    ∧ should_continue exStateC2 = Decision.tool_execution := by
  refine ⟨by decide, ?_⟩
  exact (claim2_decision_order exStateC2).2.2.2.2.2 (by decide)
    ("get_repository_info", "File Not Found") rfl (by decide)

end GClient

namespace GClient

/-- Claim C4 counterexample: for the unknown tool name "foo" the recorded
failure message is "Tool foo not found" — it contains the tool name and is
not the literal "Tool not found" the claim states. -/
theorem claim4_counterexample :
    dictLookup (tool_execution_node fullRegistry exInvokeOk exBatchC4
        (initialState "q")).tool_results "foo" = some "Tool foo not found"
    ∧ "Tool foo not found" ≠ "Tool not found" := by
  refine ⟨by decide, by decide⟩

/-- Claim C4 (amended): an invocation whose name is absent from the registry
records a failure result with message "Tool " ++ name ++ " not found" (the
message embeds the tool name); all other proposed invocations are still
processed, and the pass completes normally by incrementing the counter. -/
theorem claim4_amended (registry : List String) (invoke : ToolBehavior)
    (response : LLMResponse) (state : AgentState)
    (pre post : List ToolCall) (tc : ToolCall)
    (hsplit : response.tool_calls = pre ++ tc :: post)
    (hreg : registry.contains tc.name = false)
    (hlast : ∀ tc2 ∈ post, tc2.name ≠ tc.name) :
    dictLookup (tool_execution_node registry invoke response state).tool_results tc.name
      = some ("Tool " ++ tc.name ++ " not found")
    ∧ (∀ tc2 ∈ response.tool_calls,
        dictHasKey (tool_execution_node registry invoke response state).tool_results
          tc2.name = true)
    ∧ (tool_execution_node registry invoke response state).iteration_count
      = state.iteration_count + 1 := by
  refine ⟨?_, ?_, rfl⟩
  · rw [tool_execution_results, hsplit, List.foldl_append, List.foldl_cons,
      foldCalls_lookup_untouched registry invoke post _ tc.name hlast,
      processToolCall_unknown_eq registry invoke _ tc hreg]
    exact dictLookup_upsert_self _ _ _
  · intro tc2 hm
    rw [tool_execution_results]
    exact foldCalls_hasKey_of_mem registry invoke response.tool_calls _ tc2 hm

/-- Witness for claim C4 (amended) on the concrete batch with unknown "foo"
followed by the registered "github_greeter". -/
theorem claim4_witness :
    dictLookup (tool_execution_node fullRegistry exInvokeOk exBatchC4
        (initialState "q")).tool_results "foo"
      = some ("Tool " ++ "foo" ++ " not found")
    ∧ (∀ tc2 ∈ exBatchC4.tool_calls,
        dictHasKey (tool_execution_node fullRegistry exInvokeOk exBatchC4
          (initialState "q")).tool_results tc2.name = true)
    ∧ (tool_execution_node fullRegistry exInvokeOk exBatchC4
        (initialState "q")).iteration_count
      = (initialState "q").iteration_count + 1 :=
  claim4_amended fullRegistry exInvokeOk exBatchC4 (initialState "q")
    [] [⟨"github_greeter", [], "2"⟩] ⟨"foo", [], "1"⟩ rfl (by decide) (by decide)

/-- Claim C5: a tool fault is caught inside the pass and recorded as a
failure result carrying the fault description; the remaining invocations are
still processed and the pass completes normally, so a fault never terminates
the loop. -/
theorem claim5_fault_isolation (registry : List String) (invoke : ToolBehavior)
    (response : LLMResponse) (state : AgentState)
    (pre post : List ToolCall) (tc : ToolCall) (d : String)
    (hsplit : response.tool_calls = pre ++ tc :: post)
    (hreg : registry.contains tc.name = true)
    (hinv : invoke tc.name tc.args = .error d)
    (hlast : ∀ tc2 ∈ post, tc2.name ≠ tc.name) :
    dictLookup (tool_execution_node registry invoke response state).tool_results tc.name
      = some ("Error executing " ++ tc.name ++ ": " ++ d)
    ∧ (∀ tc2 ∈ response.tool_calls,
        dictHasKey (tool_execution_node registry invoke response state).tool_results
          tc2.name = true)
    ∧ (tool_execution_node registry invoke response state).iteration_count
      = state.iteration_count + 1 := by
  refine ⟨?_, ?_, rfl⟩
  · rw [tool_execution_results, hsplit, List.foldl_append, List.foldl_cons,
      foldCalls_lookup_untouched registry invoke post _ tc.name hlast,
      processToolCall_error_eq registry invoke _ tc d hreg hinv]
    exact dictLookup_upsert_self _ _ _
  · intro tc2 hm
    rw [tool_execution_results]
    exact foldCalls_hasKey_of_mem registry invoke response.tool_calls _ tc2 hm

/-- Witness for claim C5: a faulting invocation of "github_greeter" records
"Error executing github_greeter: boom" and the pass completes. -/
theorem claim5_witness :
    dictLookup (tool_execution_node fullRegistry exInvokeFault exBatchGreeter
        (initialState "q")).tool_results "github_greeter"
      = some ("Error executing " ++ "github_greeter" ++ ": " ++ "boom")
    ∧ (∀ tc2 ∈ exBatchGreeter.tool_calls,
        dictHasKey (tool_execution_node fullRegistry exInvokeFault exBatchGreeter
          (initialState "q")).tool_results tc2.name = true)
    ∧ (tool_execution_node fullRegistry exInvokeFault exBatchGreeter
        (initialState "q")).iteration_count
      = (initialState "q").iteration_count + 1 :=
  claim5_fault_isolation fullRegistry exInvokeFault exBatchGreeter (initialState "q")
    [] [] ⟨"github_greeter", [], "1"⟩ "boom" rfl (by decide) rfl (by decide)

/-- Claim C6: the Tool Selector returns at most `limit` identifiers without
duplicates; the semantic matches come first, the keyword-appended tools are
registry members absent from the semantic list, and the whole list is the
truncation to `limit`. -/
theorem claim6_selector_contract (registry : List String)
    (search : String → Nat → List String) (query : String) (limit : Nat)
    (hnd : (search query limit).Nodup) :
    (retrieve_relevant_tools registry search query limit).length ≤ limit
    ∧ (retrieve_relevant_tools registry search query limit).Nodup
    ∧ ∃ extra,
        retrieve_relevant_tools registry search query limit
          = ((search query limit) ++ extra).take limit
        ∧ ∀ t ∈ extra, registry.contains t = true
            ∧ (search query limit).contains t = false := by
  obtain ⟨extra, he, hp⟩ :=
    selOuter_exists registry (strLower query) special_tools (search query limit)
  refine ⟨?_, ?_, extra, ?_, hp⟩
  · rw [retrieve_eq]
    exact List.length_take_le limit _
  · rw [retrieve_eq]
    exact (selOuter_nodup registry (strLower query) special_tools
      (search query limit) hnd).sublist (List.take_sublist _ _)
  · rw [retrieve_eq, he]

/-- Witness for claim C6 at a concrete query, registry and semantic store. -/
theorem claim6_witness :
    (oneSearch "hello" 5).Nodup
    ∧ ((retrieve_relevant_tools fullRegistry oneSearch "hello" 5).length ≤ 5
      ∧ (retrieve_relevant_tools fullRegistry oneSearch "hello" 5).Nodup
      ∧ ∃ extra,
          retrieve_relevant_tools fullRegistry oneSearch "hello" 5
            = ((oneSearch "hello" 5) ++ extra).take 5
          ∧ ∀ t ∈ extra, fullRegistry.contains t = true
              ∧ (oneSearch "hello" 5).contains t = false) :=
  ⟨by decide, claim6_selector_contract fullRegistry oneSearch "hello" 5 (by decide)⟩

/-- Claim C7 counterexample: for "create a branch and then open a PR" with a
registry containing both tools and a semantic store that matches nothing, the
shortlist is the first five keyword tools and contains no
pull-request-creation tool, so the claim that both a branch-creation and a
PR-creation tool are included fails. -/
theorem claim7_counterexample :
    fullRegistry.contains "create_branch" = true
    ∧ fullRegistry.contains "create_pull_request" = true
    ∧ isComplexQuery "create a branch and then open a PR" = true
    ∧ (query_analysis_node fullRegistry emptySearch
        (initialState "create a branch and then open a PR")).selected_tools
      = ["list_branches", "create_branch", "delete_branch", "checkout_branch",
         "list_pull_requests"]
    ∧ (query_analysis_node fullRegistry emptySearch
        (initialState "create a branch and then open a PR")).selected_tools.contains
        "create_pull_request" = false := by
  refine ⟨by decide, by decide, by decide, by decide, by decide⟩

/-- Claim C7 (amended): the query is classified complex and the shortlist
includes the branch-creation tool via the "branch" keyword override, but the
truncation to the limit of 5 drops the pull-request-creation tool even when
semantic ranking returns nothing. -/
theorem claim7_amended :
    isComplexQuery "create a branch and then open a PR" = true
    ∧ (query_analysis_node fullRegistry emptySearch
        (initialState "create a branch and then open a PR")).selected_tools.contains
        "create_branch" = true
    ∧ (query_analysis_node fullRegistry emptySearch
        (initialState "create a branch and then open a PR")).selected_tools.length = 5
    ∧ (query_analysis_node fullRegistry emptySearch
        (initialState "create a branch and then open a PR")).selected_tools.contains
        "create_pull_request" = false := by
  refine ⟨by decide, by decide, by decide, by decide⟩

end GClient

namespace GClient

/-- Claim C8 counterexample: the batch proposes "create_repository", a
registry member that is not in `selected_tools` (here empty); its key enters
the result mapping with a success payload, so the key is neither a member of
`selected_tools` nor any failure sentinel for an unknown name. -/
theorem claim8_counterexample :
    dictHasKey (tool_execution_node ["create_repository"] exInvokeOk exBatchC8
        (initialState "q")).tool_results "create_repository" = true
    ∧ (tool_execution_node ["create_repository"] exInvokeOk exBatchC8
        (initialState "q")).selected_tools.contains "create_repository" = false
    ∧ dictLookup (tool_execution_node ["create_repository"] exInvokeOk exBatchC8
        (initialState "q")).tool_results "create_repository" = some "created"
    ∧ some "created" ≠ some ("Tool " ++ "create_repository" ++ " not found") := by
  refine ⟨by decide, by decide, by decide, by decide⟩

/-- Claim C8 (amended): every key of the result mapping is a key present
before the pass or the name of some proposed invocation — the executor checks
the registry, not `selected_tools` — and when the same tool runs twice the
mapping keeps only the outcome of its last run; across a whole turn every key
is the name of some proposed invocation. -/
theorem claim8_amended (registry : List String) (invoke : ToolBehavior)
    (response : LLMResponse) (state : AgentState) :
    (∀ k, dictHasKey (tool_execution_node registry invoke response state).tool_results k
          = true →
        dictHasKey state.tool_results k = true
          ∨ ∃ tc, tc ∈ response.tool_calls ∧ tc.name = k)
    ∧ (∀ (pre : List ToolCall) (tc : ToolCall),
        response.tool_calls = pre ++ [tc] →
        dictLookup (tool_execution_node registry invoke response state).tool_results
            tc.name
          = some (stepValue registry invoke tc))
    ∧ (∀ (search : String → Nat → List String) (responses : Nat → LLMResponse)
        (finalText query : String) (k : String),
        dictHasKey (runAgent registry invoke search responses finalText query).tool_results
            k = true →
        ∃ n tc, tc ∈ (responses n).tool_calls ∧ tc.name = k) := by
  refine ⟨?_, ?_, ?_⟩
  · intro k h
    exact step_keys registry invoke response state k h
  · intro pre tc hsplit
    rw [tool_execution_results, hsplit, List.foldl_append, List.foldl_cons,
      List.foldl_nil, processToolCall_snd]
    exact dictLookup_upsert_self _ _ _
  · intro search responses finalText query k h
    simp only [runAgent] at h
    rw [response_generation_results] at h
    rcases runLoop_keys registry invoke responses _ _ k h with h1 | h2
    · rw [query_analysis_results] at h1
      exact Bool.noConfusion h1
    · exact h2

/-- Witness for claim C8 (amended): "github_greeter" runs twice with
different arguments; the mapping keeps the second outcome "two". -/
theorem claim8_witness :
    dictLookup (tool_execution_node fullRegistry exInvokeEcho exBatchTwice
        (initialState "q")).tool_results "github_greeter"
      = some (stepValue fullRegistry exInvokeEcho
          ⟨"github_greeter", [("v", "two")], "2"⟩)
    ∧ stepValue fullRegistry exInvokeEcho ⟨"github_greeter", [("v", "two")], "2"⟩
      = "two" :=
  ⟨(claim8_amended fullRegistry exInvokeEcho exBatchTwice (initialState "q")).2.1
      [⟨"github_greeter", [("v", "one")], "1"⟩]
      ⟨"github_greeter", [("v", "two")], "2"⟩ rfl,
   by decide⟩

/-- Claim C9 counterexample: a pass whose only invocation names the unknown
tool "foo" records the outcome in the result mapping but appends no
tool-result message at all — the message history after the pass holds no
ToolMessage, refuting the claim that every outcome is appended. -/
theorem claim9_counterexample :
    ((tool_execution_node fullRegistry exInvokeOk exBatchUnknown
        (initialState "q")).messages.filter isToolMessage) = []
    ∧ dictLookup (tool_execution_node fullRegistry exInvokeOk exBatchUnknown
        (initialState "q")).tool_results "foo" = some "Tool foo not found" := by
  refine ⟨rfl, by decide⟩

/-- Claim C9 (amended): the history is append-only within a pass; only a
successful invocation appends its outcome as a ToolMessage, while faulting
and unknown-tool invocations leave the history untouched; the result mapping
is upserted for every proposed invocation whatever its outcome. -/
theorem claim9_amended (registry : List String) (invoke : ToolBehavior)
    (response : LLMResponse) (state : AgentState) :
    (∃ tail, (tool_execution_node registry invoke response state).messages
        = state.messages ++ tail)
    ∧ (∀ (acc : List Message × List (String × String)) (tc : ToolCall) (r : String),
        registry.contains tc.name = true → invoke tc.name tc.args = .ok r →
        processToolCall registry invoke acc tc
          = (acc.1 ++ [Message.tool r tc.id], dictUpsert acc.2 tc.name r))
    ∧ (∀ (acc : List Message × List (String × String)) (tc : ToolCall) (e : String),
        registry.contains tc.name = true → invoke tc.name tc.args = .error e →
        processToolCall registry invoke acc tc
          = (acc.1, dictUpsert acc.2 tc.name ("Error executing " ++ tc.name ++ ": " ++ e)))
    ∧ (∀ (acc : List Message × List (String × String)) (tc : ToolCall),
        registry.contains tc.name = false →
        processToolCall registry invoke acc tc
          = (acc.1, dictUpsert acc.2 tc.name ("Tool " ++ tc.name ++ " not found")))
    ∧ (∀ (acc : List Message × List (String × String)) (tc : ToolCall),
        (processToolCall registry invoke acc tc).2
          = dictUpsert acc.2 tc.name (stepValue registry invoke tc)) := by
  refine ⟨?_, processToolCall_ok_eq registry invoke, processToolCall_error_eq registry invoke,
    processToolCall_unknown_eq registry invoke, processToolCall_snd registry invoke⟩
  obtain ⟨tail, ht⟩ := foldCalls_fst_append registry invoke response.tool_calls
    (state.messages ++ [Message.human (planningPrompt state), Message.ai response.content],
     state.tool_results)
  refine ⟨[Message.human (planningPrompt state), Message.ai response.content] ++ tail, ?_⟩
  rw [tool_execution_messages, ht, List.append_assoc]

/-- Witness for claim C9 (amended): a successful run of "github_greeter"
appends exactly its ToolMessage and upserts its result. -/
theorem claim9_witness :
    processToolCall fullRegistry exInvokeOk ([], []) ⟨"github_greeter", [], "1"⟩
      = ([Message.tool "created" "1"], [("github_greeter", "created")]) := by
  have h := (claim9_amended fullRegistry exInvokeOk exBatchGreeter (initialState "q")).2.1
    ([], []) ⟨"github_greeter", [], "1"⟩ "created" (by decide) rfl
  rw [h]
  rfl

end GClient
